import Mathlib

/-!
Shallow embedding of `scimitar/plotting.py`: the 2-D embedding selector
(`choose_2d_embedding`), the metastable-graph plotter
(`plot_metastable_graph`), the transition-model plotter
(`plot_transition_model`) and the pseudotime gene clustermap
(`plot_transition_clustermap`), together with theorems about their
rendering-level behaviour.

Conventions used throughout:
* a data matrix is a `List (List ℚ)` of observation rows; exact rationals
  stand for Python floats, and `ℝ` is used where the source takes a natural
  logarithm (`np.log`);
* display colors are `ℕ` and the process-wide palette `settings.STATE_COLORS`
  is a function parameter `palette : ℕ → ℕ`;
* the external locally-linear-embedding fit (`sklearn`) is an opaque function
  parameter `ft` standing for `fit_transform`; a fitted projector's `transform`
  capability is the row-wise function stored in the `Embedding` itself;
* graph states are identified with their integer `index` attribute, exactly as
  the source indexes node-position arrays by `state.index`.
-/

namespace Scimitar

/-- A configured `LocallyLinearEmbedding(n_components=2, n_neighbors=…, method=…)`
projector.  `tf` is its per-row transform capability; a freshly constructed
projector is unfit, and its placeholder `tf` is only ever replaced by the
external fitting algorithm (`ft`) before use. -/
structure Embedding where
  n_components : ℕ
  n_neighbors : ℕ
  method : String
  tf : List ℚ → ℚ × ℚ

/-- `embedding.transform(data)`: row-wise application of the fitted transform. -/
def Embedding.transform (e : Embedding) (data : List (List ℚ)) : List (ℚ × ℚ) :=
  data.map e.tf

/-- `choose_2d_embedding(data, n_neighbors=None)` (plotting.py lines 15-23).
The default neighbor count is `int(data.shape[0] * 0.8)` — float truncation,
modelled exactly by natural-number division `8 * rows / 10` — and the LLE
variant is `'modified'` below 50 observations, `'standard'` otherwise. -/
def choose_2d_embedding (data : List (List ℚ)) (n_neighbors : Option ℕ) : Embedding :=
  let nn := match n_neighbors with
    | none => 8 * data.length / 10
    | some k => k
  { n_components := 2
    n_neighbors := nn
    method := if data.length < 50 then "modified" else "standard"
    tf := fun _ => (0, 0) }

/-- `np.arange(start, stop, step)` over exact rationals:
`⌈(stop - start) / step⌉` evenly spaced values `start + i * step`. -/
def np_arange (start stop step : ℚ) : List ℚ :=
  (List.range (⌈(stop - start) / step⌉.toNat)).map (fun (i : ℕ) => start + (i : ℚ) * step)

/-- The transition plotter's default timepoint grid, `np.arange(0, 1, 0.02)`
(plotting.py line 81). -/
def default_timepoints : List ℚ :=
  np_arange 0 1 0.02

/-- The metastable graph: a state model exposing `predict` and integer-indexed
`centroids`, plus the graph's own `state_edges` and `edge_weights`.  States are
identified with their integer `index`; `edge_weights` is the association list
of `((state1.index, state2.index), weight)` items. -/
structure MetastableGraph where
  predict : List (List ℚ) → List ℕ
  centroids : ℕ → List ℚ
  state_edges : List (ℕ × ℕ)
  edge_weights : List ((ℕ × ℕ) × ℚ)

/-- The embedding-resolution step shared by `plot_metastable_graph`
(lines 30-34) and `plot_transition_model` (lines 82-86): fit-and-transform a
fresh projector when no embedding is supplied, otherwise transform-only with
the caller's embedding. -/
def resolve_embedding (ft : Embedding → List (List ℚ) → Embedding × List (ℚ × ℚ))
    (data : List (List ℚ)) (n_neighbors : Option ℕ) :
    Option Embedding → Embedding × List (ℚ × ℚ)
  | none => ft (choose_2d_embedding data n_neighbors) data
  | some e => (e, e.transform data)

/-- Membership resolution (plotting.py lines 35-36): classify via the graph's
state model when memberships are not supplied. -/
def resolve_memberships (metastable_graph : MetastableGraph) (data : List (List ℚ)) :
    Option (List ℕ) → List ℕ
  | none => metastable_graph.predict data
  | some m => m

/-- Insertion into an ascending list (helper for the sorted-unique states). -/
def insertAsc (x : ℕ) : List ℕ → List ℕ
  | [] => [x]
  | y :: ys => if x ≤ y then x :: y :: ys else y :: insertAsc x ys

/-- `np.unique(memberships)` (plotting.py line 52): the distinct membership
states in ascending order. -/
def ordered_states (memberships : List ℕ) : List ℕ :=
  memberships.dedup.foldr insertAsc []

/-- The node size for one state (plotting.py line 54):
`5000 * np.log(1 + (memberships == state).sum() / float(len(memberships)))`. -/
noncomputable def node_size (memberships : List ℕ) (state : ℕ) : ℝ :=
  5000 * Real.log (1 + (memberships.count state : ℝ) / (memberships.length : ℝ))

/-- The `sizes` list of plotting.py line 54, one entry per unique state. -/
noncomputable def plot_node_sizes (memberships : List ℕ) : List ℝ :=
  (ordered_states memberships).map (node_size memberships)

/-- The node positions (plotting.py line 53): each unique state's centroid
transformed into the 2-D embedding (`embedding.transform(centroids[s])[0]`). -/
def node_centers (emb : Embedding) (metastable_graph : MetastableGraph)
    (memberships : List ℕ) : List (ℚ × ℚ) :=
  (ordered_states memberships).map (fun s => emb.tf (metastable_graph.centroids s))

/-- The `X` coordinate array of plotting.py line 55. -/
def node_X (emb : Embedding) (metastable_graph : MetastableGraph)
    (memberships : List ℕ) : List ℚ :=
  (node_centers emb metastable_graph memberships).map Prod.fst

/-- The `Y` coordinate array of plotting.py line 55. -/
def node_Y (emb : Embedding) (metastable_graph : MetastableGraph)
    (memberships : List ℕ) : List ℚ :=
  (node_centers emb metastable_graph memberships).map Prod.snd

/-- The edge stroke width of plotting.py line 62: `max(0.5, 7 * weight)`. -/
def edge_linewidth (weight : ℚ) : ℚ :=
  max (0.5 : ℚ) (7 * weight)

/-- One edge-drawing step of the loop at plotting.py lines 60-62: look the two
endpoint indices up in the node-position arrays and emit the segment with its
stroke width; a lookup outside the arrays is an `IndexError`, modelled as
`none`. -/
def edge_segment (X Y : List ℚ) (edge : (ℕ × ℕ) × ℚ) :
    Option (((ℚ × ℚ) × (ℚ × ℚ)) × ℚ) :=
  match X[edge.1.1]?, Y[edge.1.1]?, X[edge.1.2]?, Y[edge.1.2]? with
  | some x1, some y1, some x2, some y2 =>
      some (((x1, y1), (x2, y2)), edge_linewidth edge.2)
  | _, _, _, _ => none

/-- The bottom (graph) panel drawn by `plot_metastable_graph` when
`plot_edges` is set (plotting.py lines 52-69), minus the node sizes, which are
the separate real-valued `plot_node_sizes`. -/
structure OverlayRender where
  ordered : List ℕ
  X : List ℚ
  Y : List ℚ
  node_colors : List ℕ
  state_edges_used : List (ℕ × ℕ)
  edge_weights_used : List ((ℕ × ℕ) × ℚ)
  edges_drawn : List (Option (((ℚ × ℚ) × (ℚ × ℚ)) × ℚ))

/-- The overlay-panel computation of plotting.py lines 52-69: sorted unique
states, their transformed centroid positions, the empty-argument fallbacks to
the graph's own edge data, and the per-edge drawing calls. -/
def graph_overlay (palette : ℕ → ℕ) (emb : Embedding)
    (metastable_graph : MetastableGraph) (memberships : List ℕ)
    (state_edges : List (ℕ × ℕ)) (edge_weights : List ((ℕ × ℕ) × ℚ)) :
    OverlayRender :=
  let ordered := ordered_states memberships
  let X := node_X emb metastable_graph memberships
  let Y := node_Y emb metastable_graph memberships
  let se := if state_edges.length = 0 then metastable_graph.state_edges else state_edges
  let ew := if edge_weights.length = 0 then metastable_graph.edge_weights else edge_weights
  { ordered := ordered
    X := X
    Y := Y
    node_colors := ordered.map palette
    state_edges_used := se
    edge_weights_used := ew
    edges_drawn := ew.map (edge_segment X Y) }

/-- What one call of `plot_metastable_graph` renders and returns. -/
structure GraphPlotRender where
  scatter_colors : List ℕ
  overlay : Option OverlayRender
  returned : Option (List ℕ × Embedding)

/-- `plot_metastable_graph` (plotting.py lines 27-78): resolve the embedding
and the memberships, scatter every point with its state's palette color, and —
only when `plot_edges` is set — draw the graph overlay and return the color
array together with the embedding (the `plot_edges=False` branch has no
`return` statement, i.e. returns `None`). -/
def plot_metastable_graph (ft : Embedding → List (List ℚ) → Embedding × List (ℚ × ℚ))
    (palette : ℕ → ℕ) (data : List (List ℚ)) (metastable_graph : MetastableGraph)
    (n_neighbors : Option ℕ) (plot_edges : Bool) (state_edges : List (ℕ × ℕ))
    (edge_weights : List ((ℕ × ℕ) × ℚ)) (embedding : Option Embedding)
    (memberships : Option (List ℕ)) : GraphPlotRender :=
  let re := resolve_embedding ft data n_neighbors embedding
  let mems := resolve_memberships metastable_graph data memberships
  if plot_edges = false then
    { scatter_colors := mems.map palette
      overlay := none
      returned := none }
  else
    { scatter_colors := mems.map palette
      overlay := some (graph_overlay palette re.1 metastable_graph mems state_edges edge_weights)
      returned := some (mems.map palette, re.1) }

/-- The transition model: a `mean(timepoints)` capability (one position per
timepoint) and a `sample_along_timepoints` capability (only its presence
matters here; the density overlay is drawing-surface output). -/
structure TransitionModel where
  mean : List ℚ → List (List ℚ)
  sample_along_timepoints : List ℚ → ℕ → List (List ℚ)

/-- The connecting line segments of plotting.py lines 105-108:
`for i in range(1, m): plot segment from interp_mean[i-1] to interp_mean[i]`,
i.e. consecutive pairs in sequence order. -/
def trajectory_segments (interp_mean : List (ℚ × ℚ)) : List ((ℚ × ℚ) × (ℚ × ℚ)) :=
  interp_mean.zip interp_mean.tail

/-- What one call of `plot_transition_model` renders and returns (the
kernel-density overlay of lines 91-102 is drawing-surface output only). -/
structure TransitionPlotRender where
  transformed : List (ℚ × ℚ)
  interp_mean : List (ℚ × ℚ)
  mean_segments : List ((ℚ × ℚ) × (ℚ × ℚ))
  returned : Embedding

/-- `plot_transition_model` (plotting.py lines 80-115): resolve the embedding,
project the model's mean trajectory at the given timepoints, draw the mean
path as consecutive segments, and return the embedding. -/
def plot_transition_model (ft : Embedding → List (List ℚ) → Embedding × List (ℚ × ℚ))
    (data : List (List ℚ)) (transition_model : TransitionModel)
    (n_neighbors : Option ℕ) (embedding : Option Embedding)
    (timepoints : List ℚ) : TransitionPlotRender :=
  let re := resolve_embedding ft data n_neighbors embedding
  let interp_mean := (transition_model.mean timepoints).map re.1.tf
  { transformed := re.2
    interp_mean := interp_mean
    mean_segments := trajectory_segments interp_mean
    returned := re.1 }

/-- The x-tick column positions of `plot_transition_clustermap`
(plotting.py line 146): `np.arange(10, T, T/10)` where `T = data_array.shape[0]`
is the number of pseudotime rows, with the Python-2 integer division the module
was written for (under float division the subsequent `pseudotimes[r]` indexing
would raise).  The positions are `10 + k * (T / 10)` for `k` below
`⌈(T - 10) / (T / 10)⌉`. -/
def clustermap_xticks (T : ℕ) : List ℕ :=
  (List.range ((T - 10 + (T / 10 - 1)) / (T / 10))).map (fun k => 10 + k * (T / 10))

/-- One `gene_clusters[STATE_COLORS[cl]].append(gene_names[i])` step of the
`defaultdict(list)` accumulation (plotting.py lines 153-155): append to the
existing bucket for color `c`, or open a new bucket at the end. -/
def addToCluster {γ : Type} (m : List (ℕ × List γ)) (c : ℕ) (g : γ) :
    List (ℕ × List γ) :=
  match m with
  | [] => [(c, [g])]
  | e :: rest =>
      if e.1 = c then (e.1, e.2 ++ [g]) :: rest else e :: addToCluster rest c g

/-- The whole accumulation loop of plotting.py lines 154-155 over
`(color, gene name)` pairs. -/
def build_clusters {γ : Type} : List (ℕ × γ) → List (ℕ × List γ) → List (ℕ × List γ)
  | [], m => m
  | p :: ps, m => build_clusters ps (addToCluster m p.1 p.2)

/-- The mapping returned by `plot_transition_clustermap`
(plotting.py lines 153-156): for each position `i`, `gene_names[i]` is appended
to the bucket keyed by the palette color of `assignments[i]`. -/
def gene_clusters {γ : Type} (palette : ℕ → ℕ) (gene_names : List γ)
    (assignments : List ℕ) : List (ℕ × List γ) :=
  build_clusters ((assignments.map palette).zip gene_names) []

/-- Total number of occurrences of gene name `x` across all value lists of the
mapping. -/
def clusterGeneCount {γ : Type} [DecidableEq γ] (x : γ) (m : List (ℕ × List γ)) : ℕ :=
  (m.map (fun e => e.2.count x)).sum

/-- A concrete fitted embedding used to instantiate the theorems below. -/
def fixture_embedding : Embedding :=
  { n_components := 2
    n_neighbors := 1
    method := "standard"
    tf := fun row => (row.headD 0, 0) }

/-- A concrete metastable graph used to instantiate the theorems below. -/
def fixture_graph : MetastableGraph :=
  { predict := fun _ => []
    centroids := fun s => [(s : ℚ)]
    state_edges := []
    edge_weights := [] }

/-! ## Helper lemmas -/

theorem default_timepoints_eq :
    default_timepoints = (List.range 50).map (fun (i : ℕ) => (0 : ℚ) + (i : ℚ) * 0.02) := by
  have h : (⌈((1 : ℚ) - 0) / (0.02 : ℚ)⌉ : ℤ) = 50 := by norm_num
  simp only [default_timepoints, np_arange, h]
  rfl

theorem zip_tail_getElem? {α : Type} (l : List α) (i : ℕ) (p q : α)
    (hp : l[i]? = some p) (hq : l[i + 1]? = some q) :
    (l.zip l.tail)[i]? = some (p, q) := by
  induction l generalizing i with
  | nil => simp at hp
  | cons x xs ih =>
      cases xs with
      | nil =>
          cases i with
          | zero => simp at hq
          | succ n => simp at hq
      | cons y ys =>
          cases i with
          | zero =>
              simp only [List.getElem?_cons_zero, Option.some.injEq] at hp
              subst hp
              have hyq : y = q := by simpa using hq
              subst hyq
              simp [List.zip_cons_cons]
          | succ n =>
              rw [List.getElem?_cons_succ] at hp hq
              simpa [List.zip_cons_cons] using ih n hp hq

theorem trajectory_segments_length (interp_mean : List (ℚ × ℚ)) :
    (trajectory_segments interp_mean).length = interp_mean.length - 1 := by
  simp only [trajectory_segments, List.length_zip, List.length_tail]
  omega

/-! ## Claim theorems -/

/-- C1 counterexample: the default timepoint grid of the transition plotter,
`np.arange(0, 1, 0.02)`, has 50 points, not the 100 the specification
states. -/
theorem c1_default_grid_cex :
    default_timepoints.length = 50 ∧ default_timepoints.length ≠ 100 := by
  rw [default_timepoints_eq]
  simp

/-- C1 (amended): when the caller omits the timepoint grid of the transition
plotter, the default grid consists of 50 evenly spaced timepoints (step 0.02)
over the half-open interval `[0, 1)`, the `i`-th being `i * 0.02`. -/
theorem c1_default_grid :
    default_timepoints.length = 50 ∧
    (∀ i : ℕ, i < 50 → default_timepoints[i]? = some ((i : ℚ) * 0.02)) ∧
    (∀ t ∈ default_timepoints, 0 ≤ t ∧ t < 1) := by
  refine ⟨by rw [default_timepoints_eq]; simp, ?_, ?_⟩
  · intro i hi
    rw [default_timepoints_eq, List.getElem?_map, List.getElem?_range hi]
    simp
  · intro t ht
    rw [default_timepoints_eq, List.mem_map] at ht
    obtain ⟨i, hi, rfl⟩ := ht
    rw [List.mem_range] at hi
    have h0 : (0 : ℚ) ≤ (i : ℚ) := Nat.cast_nonneg i
    have h49 : (i : ℚ) ≤ 49 := by exact_mod_cast Nat.le_of_lt_succ hi
    constructor
    · nlinarith
    · nlinarith

/-- C1 witness: the first default timepoint is `0 * 0.02`. -/
theorem c1_default_grid_wit :
    (0 : ℕ) < 50 ∧ default_timepoints[0]? = some ((0 : ℚ) * 0.02) :=
  ⟨by decide, c1_default_grid.2.1 0 (by decide)⟩

/-- C2 counterexample: on a 7-row data matrix the selector configures
`int(7 * 0.8) = 5` neighbors, while `round(0.8 * 7) = 6`. -/
theorem c2_default_neighbors_cex :
    (choose_2d_embedding (List.replicate 7 ([] : List ℚ)) none).n_neighbors = 5 ∧
    round ((0.8 : ℚ) * 7) = 6 ∧
    ((choose_2d_embedding (List.replicate 7 ([] : List ℚ)) none).n_neighbors : ℤ)
      ≠ round ((0.8 : ℚ) * 7) := by
  refine ⟨rfl, by norm_num [round_eq], ?_⟩
  rw [show (choose_2d_embedding (List.replicate 7 ([] : List ℚ)) none).n_neighbors = 5 from rfl]
  norm_num [round_eq]

/-- C2 (amended): when `n_neighbors` is omitted, the embedding selector
configures the projector with `int(0.8 * row_count)` neighbors, i.e. the
floor (truncation) of 80% of the observation count, not its rounding. -/
theorem c2_default_neighbors (data : List (List ℚ)) :
    (choose_2d_embedding data none).n_neighbors = ⌊(0.8 : ℚ) * (data.length : ℚ)⌋₊ := by
  have h : (0.8 : ℚ) * (data.length : ℚ)
      = ((8 * data.length : ℕ) : ℚ) / ((10 : ℕ) : ℚ) := by
    push_cast
    ring
  rw [h, Nat.floor_div_nat, Nat.floor_natCast]
  rfl

/-- C3 counterexample: with 100 pseudotime rows, `np.arange(10, 100, 10)`
relabels only 9 column positions, not 10. -/
theorem c3_xtick_positions_cex :
    (clustermap_xticks 100).length = 9 ∧ (clustermap_xticks 100).length ≠ 10 := by
  decide

/-- C3 (amended): the clustermap x-axis is relabeled at the column positions
`10 + k * (T / 10)` strictly below `T` (where `T` is the pseudotime row count);
when `T > 100` there are exactly 10 of them, but at `T = 100` there are 9, and
the positions start at column 10 rather than 0. -/
theorem c3_xtick_positions (T : ℕ) (hT : 100 < T) :
    (clustermap_xticks T).length = 10 ∧
    ∀ k : ℕ, k < 10 →
      (clustermap_xticks T)[k]? = some (10 + k * (T / 10)) ∧ 10 + k * (T / 10) < T := by
  have hpos : 0 < T / 10 := by omega
  have hs1 : 10 * (T / 10) ≤ T - 10 + (T / 10 - 1) := by omega
  have hs2 : T - 10 + (T / 10 - 1) < 11 * (T / 10) := by omega
  have h1 : 10 ≤ (T - 10 + (T / 10 - 1)) / (T / 10) :=
    (Nat.le_div_iff_mul_le hpos).mpr hs1
  have h2 : (T - 10 + (T / 10 - 1)) / (T / 10) < 11 :=
    (Nat.div_lt_iff_lt_mul hpos).mpr hs2
  have hlen : (T - 10 + (T / 10 - 1)) / (T / 10) = 10 := by omega
  have hform : clustermap_xticks T = (List.range 10).map (fun k => 10 + k * (T / 10)) := by
    simp only [clustermap_xticks, hlen]
  refine ⟨by rw [hform]; simp, ?_⟩
  intro k hk
  have hkq : k * (T / 10) ≤ 9 * (T / 10) := Nat.mul_le_mul_right _ (by omega)
  refine ⟨?_, by omega⟩
  rw [hform, List.getElem?_map, List.getElem?_range hk]
  rfl

/-- C3 witness: at `T = 200` the ten positions are `10, 30, …, 190`. -/
theorem c3_xtick_positions_wit :
    (100 : ℕ) < 200 ∧ (clustermap_xticks 200).length = 10 ∧
    (clustermap_xticks 200)[9]? = some (10 + 9 * (200 / 10)) :=
  ⟨by decide, (c3_xtick_positions 200 (by decide)).1,
    ((c3_xtick_positions 200 (by decide)).2 9 (by decide)).1⟩

/-- C5: the graph plotter with the overlay enabled returns the per-point color
array (entry `i` is the palette entry of the `i`-th membership label) together
with the resolved embedding; with the overlay disabled it returns `None`. -/
theorem c5_return_values (ft : Embedding → List (List ℚ) → Embedding × List (ℚ × ℚ))
    (palette : ℕ → ℕ) (data : List (List ℚ)) (metastable_graph : MetastableGraph)
    (n_neighbors : Option ℕ) (state_edges : List (ℕ × ℕ))
    (edge_weights : List ((ℕ × ℕ) × ℚ)) (embedding : Option Embedding)
    (memberships : Option (List ℕ)) :
    ((plot_metastable_graph ft palette data metastable_graph n_neighbors true
        state_edges edge_weights embedding memberships).returned
      = some ((resolve_memberships metastable_graph data memberships).map palette,
              (resolve_embedding ft data n_neighbors embedding).1)) ∧
    (∀ i : ℕ,
      (plot_metastable_graph ft palette data metastable_graph n_neighbors true
          state_edges edge_weights embedding memberships).scatter_colors[i]?
        = ((resolve_memberships metastable_graph data memberships)[i]?).map palette) ∧
    ((plot_metastable_graph ft palette data metastable_graph n_neighbors false
        state_edges edge_weights embedding memberships).returned = none) := by
  refine ⟨rfl, ?_, rfl⟩
  intro i
  show ((resolve_memberships metastable_graph data memberships).map palette)[i]?
      = ((resolve_memberships metastable_graph data memberships)[i]?).map palette
  rw [List.getElem?_map]

/-- C7: the transition plotter draws the projected mean trajectory as exactly
`m - 1` consecutive segments in timepoint order: segment `i` joins projected
mean `i` to projected mean `i + 1`. -/
theorem c7_trajectory_path (interp_mean : List (ℚ × ℚ)) :
    (trajectory_segments interp_mean).length = interp_mean.length - 1 ∧
    (∀ i : ℕ, ∀ p q : ℚ × ℚ, interp_mean[i]? = some p → interp_mean[i + 1]? = some q →
      (trajectory_segments interp_mean)[i]? = some (p, q)) ∧
    (∀ ft data transition_model n_neighbors embedding timepoints,
      (plot_transition_model ft data transition_model n_neighbors embedding
          timepoints).mean_segments
        = trajectory_segments (plot_transition_model ft data transition_model n_neighbors
            embedding timepoints).interp_mean) := by
  refine ⟨trajectory_segments_length interp_mean, ?_, fun _ _ _ _ _ _ => rfl⟩
  intro i p q hp hq
  exact zip_tail_getElem? interp_mean i p q hp hq

/-- C7 witness: a three-point projected mean trajectory yields exactly the two
segments joining consecutive points. -/
theorem c7_trajectory_path_wit :
    ([(0, 0), (1, 0), (2, 0)] : List (ℚ × ℚ))[0]? = some (0, 0) ∧
    ([(0, 0), (1, 0), (2, 0)] : List (ℚ × ℚ))[1]? = some (1, 0) ∧
    (trajectory_segments [(0, 0), (1, 0), (2, 0)])[0]? = some ((0, 0), (1, 0)) ∧
    (trajectory_segments [(0, 0), (1, 0), (2, 0)]).length = 2 :=
  ⟨rfl, rfl, (c7_trajectory_path _).2.1 0 _ _ rfl rfl,
    (c7_trajectory_path ([(0, 0), (1, 0), (2, 0)] : List (ℚ × ℚ))).1⟩

/-- C8: a caller-supplied embedding is only ever used through its transform
capability and is returned unchanged; fit-and-transform happens exactly when no
embedding is supplied. -/
theorem c8_no_refit (ft : Embedding → List (List ℚ) → Embedding × List (ℚ × ℚ))
    (data : List (List ℚ)) (n_neighbors : Option ℕ) (e : Embedding)
    (palette : ℕ → ℕ) (metastable_graph : MetastableGraph)
    (state_edges : List (ℕ × ℕ)) (edge_weights : List ((ℕ × ℕ) × ℚ))
    (memberships : Option (List ℕ)) (transition_model : TransitionModel)
    (timepoints : List ℚ) :
    ((resolve_embedding ft data n_neighbors (some e)).1 = e) ∧
    ((resolve_embedding ft data n_neighbors (some e)).2 = e.transform data) ∧
    (resolve_embedding ft data n_neighbors none
      = ft (choose_2d_embedding data n_neighbors) data) ∧
    ((plot_transition_model ft data transition_model n_neighbors (some e)
        timepoints).returned = e) ∧
    ((plot_metastable_graph ft palette data metastable_graph n_neighbors true
        state_edges edge_weights (some e) memberships).returned
      = some ((resolve_memberships metastable_graph data memberships).map palette, e)) :=
  ⟨rfl, rfl, rfl, rfl, rfl⟩

/-- C9: in the overlay panel an empty supplied `edge_weights` is replaced by the
graph's own `edge_weights` (and likewise for `state_edges`), a non-empty one is
used as given, and the edges drawn are exactly those of the resolved weight
mapping. -/
theorem c9_edge_fallback (palette : ℕ → ℕ) (emb : Embedding)
    (metastable_graph : MetastableGraph) (memberships : List ℕ)
    (state_edges : List (ℕ × ℕ)) (edge_weights : List ((ℕ × ℕ) × ℚ))
    (ft : Embedding → List (List ℚ) → Embedding × List (ℚ × ℚ))
    (data : List (List ℚ)) (n_neighbors : Option ℕ)
    (embedding : Option Embedding) (mems : Option (List ℕ)) :
    ((graph_overlay palette emb metastable_graph memberships state_edges
        edge_weights).edge_weights_used
      = if edge_weights.length = 0 then metastable_graph.edge_weights else edge_weights) ∧
    ((graph_overlay palette emb metastable_graph memberships state_edges
        edge_weights).state_edges_used
      = if state_edges.length = 0 then metastable_graph.state_edges else state_edges) ∧
    ((graph_overlay palette emb metastable_graph memberships state_edges
        edge_weights).edges_drawn
      = ((graph_overlay palette emb metastable_graph memberships state_edges
          edge_weights).edge_weights_used).map
          (edge_segment (node_X emb metastable_graph memberships)
            (node_Y emb metastable_graph memberships))) ∧
    ((plot_metastable_graph ft palette data metastable_graph n_neighbors true
        state_edges edge_weights embedding mems).overlay
      = some (graph_overlay palette (resolve_embedding ft data n_neighbors embedding).1
          metastable_graph (resolve_memberships metastable_graph data mems)
          state_edges edge_weights)) :=
  ⟨rfl, rfl, rfl, rfl⟩

/-- C4: with the overlay enabled, the node size passed to the scatter call for
the `j`-th unique state — a state with `k` of the `N` points — is
`5000 * ln(1 + k/N)`, and every drawn edge of weight `w` has stroke width
`max(0.5, 7 * w)`. -/
theorem c4_node_sizes_edge_widths (memberships : List ℕ) (j state k N : ℕ)
    (hj : (ordered_states memberships)[j]? = some state)
    (hk : k = memberships.count state) (hN : N = memberships.length) :
    ((plot_node_sizes memberships)[j]?
      = some (5000 * Real.log (1 + (k : ℝ) / (N : ℝ)))) ∧
    (∀ X Y : List ℚ, ∀ endpoints : ℕ × ℕ, ∀ w : ℚ, ∀ seg : ((ℚ × ℚ) × (ℚ × ℚ)) × ℚ,
      edge_segment X Y (endpoints, w) = some seg → seg.2 = max (0.5 : ℚ) (7 * w)) := by
  constructor
  · rw [plot_node_sizes, List.getElem?_map, hj]
    subst hk
    subst hN
    rfl
  · intro X Y endpoints w seg h
    cases hA : X[endpoints.1]? <;> cases hB : Y[endpoints.1]? <;>
      cases hC : X[endpoints.2]? <;> cases hD : Y[endpoints.2]? <;>
      simp [edge_segment, hA, hB, hC, hD] at h
    subst h
    rfl

/-- C4 witness: in `[0, 0, 1]` state `0` holds 2 of the 3 points and its node
size is `5000 * ln(1 + 2/3)`. -/
theorem c4_node_sizes_edge_widths_wit :
    ((ordered_states [0, 0, 1])[0]? = some 0) ∧
    (2 = List.count 0 [0, 0, 1]) ∧ (3 = List.length [0, 0, 1]) ∧
    ((plot_node_sizes [0, 0, 1])[0]? = some (5000 * Real.log (1 + (2 : ℝ) / (3 : ℝ)))) :=
  ⟨by decide, by decide, by decide,
    (c4_node_sizes_edge_widths [0, 0, 1] 0 0 2 3 (by decide) (by decide) (by decide)).1⟩

/-- C10: when the unique membership states are exactly `0, …, k-1` and both
edge-endpoint indices are below `k`, each endpoint lookup into the
node-position arrays is in bounds and yields that state's transformed centroid;
an endpoint index at or beyond the number of present states makes the lookup
fail (an `IndexError` in the source). -/
theorem c10_edge_lookup (emb : Embedding) (metastable_graph : MetastableGraph)
    (memberships : List ℕ) (k a b : ℕ) (w : ℚ)
    (hstates : ordered_states memberships = List.range k) (ha : a < k) (hb : b < k) :
    (edge_segment (node_X emb metastable_graph memberships)
        (node_Y emb metastable_graph memberships) ((a, b), w)
      = some ((emb.tf (metastable_graph.centroids a),
               emb.tf (metastable_graph.centroids b)), edge_linewidth w)) ∧
    (∀ idx : ℕ, (node_X emb metastable_graph memberships).length ≤ idx →
      ∀ b' : ℕ, ∀ w' : ℚ,
        edge_segment (node_X emb metastable_graph memberships)
          (node_Y emb metastable_graph memberships) ((idx, b'), w') = none) := by
  have hX : ∀ i, i < k → (node_X emb metastable_graph memberships)[i]?
      = some ((emb.tf (metastable_graph.centroids i)).1) := by
    intro i hi
    simp [node_X, node_centers, hstates, List.getElem?_map, List.getElem?_range hi]
  have hY : ∀ i, i < k → (node_Y emb metastable_graph memberships)[i]?
      = some ((emb.tf (metastable_graph.centroids i)).2) := by
    intro i hi
    simp [node_Y, node_centers, hstates, List.getElem?_map, List.getElem?_range hi]
  constructor
  · simp [edge_segment, hX a ha, hY a ha, hX b hb, hY b hb]
  · intro idx hidx b' w'
    have hnone : (node_X emb metastable_graph memberships)[idx]? = none :=
      List.getElem?_eq_none hidx
    simp [edge_segment, hnone]

/-- C10 witness: with memberships `[0, 1]` the edge `(0, 1)` is drawn between
the two transformed centroids. -/
theorem c10_edge_lookup_wit :
    (ordered_states [0, 1] = List.range 2) ∧
    (edge_segment (node_X fixture_embedding fixture_graph [0, 1])
        (node_Y fixture_embedding fixture_graph [0, 1]) ((0, 1), 1)
      = some ((fixture_embedding.tf (fixture_graph.centroids 0),
               fixture_embedding.tf (fixture_graph.centroids 1)), edge_linewidth 1)) :=
  ⟨by decide,
    (c10_edge_lookup fixture_embedding fixture_graph [0, 1] 2 0 1 1 (by decide)
      (by decide) (by decide)).1⟩

/-! ## The gene-cluster mapping (C6) -/

theorem keys_addToCluster {γ : Type} (m : List (ℕ × List γ)) (c : ℕ) (g : γ) :
    ((addToCluster m c g).map Prod.fst).toFinset = insert c ((m.map Prod.fst).toFinset) := by
  induction m with
  | nil => simp [addToCluster]
  | cons e rest ih =>
      by_cases h : e.1 = c
      · simp [addToCluster, h]
      · simp only [addToCluster, if_neg h, List.map_cons, List.toFinset_cons, ih]
        rw [Finset.Insert.comm]

theorem keys_build_clusters {γ : Type} (pairs : List (ℕ × γ)) (m : List (ℕ × List γ)) :
    ((build_clusters pairs m).map Prod.fst).toFinset
      = (pairs.map Prod.fst).toFinset ∪ (m.map Prod.fst).toFinset := by
  induction pairs generalizing m with
  | nil => simp [build_clusters]
  | cons p ps ih =>
      simp only [build_clusters, ih, keys_addToCluster, List.map_cons, List.toFinset_cons]
      rw [Finset.union_insert, Finset.insert_union]

theorem clusterGeneCount_cons {γ : Type} [DecidableEq γ] (x : γ)
    (e : ℕ × List γ) (rest : List (ℕ × List γ)) :
    clusterGeneCount x (e :: rest) = e.2.count x + clusterGeneCount x rest := by
  simp [clusterGeneCount]

theorem clusterGeneCount_addToCluster {γ : Type} [DecidableEq γ]
    (m : List (ℕ × List γ)) (c : ℕ) (g x : γ) :
    clusterGeneCount x (addToCluster m c g)
      = clusterGeneCount x m + if g = x then 1 else 0 := by
  induction m with
  | nil =>
      by_cases hgx : g = x <;>
        simp [addToCluster, clusterGeneCount, List.count_cons, beq_iff_eq, hgx]
  | cons e rest ih =>
      by_cases h : e.1 = c
      · by_cases hgx : g = x
        all_goals
          simp [addToCluster, h, clusterGeneCount, List.count_append, List.count_cons,
            beq_iff_eq, hgx]
        all_goals omega
      · rw [show addToCluster (e :: rest) c g = e :: addToCluster rest c g from by
            simp [addToCluster, h]]
        rw [clusterGeneCount_cons, clusterGeneCount_cons, ih]
        ring

theorem clusterGeneCount_build {γ : Type} [DecidableEq γ]
    (pairs : List (ℕ × γ)) (m : List (ℕ × List γ)) (x : γ) :
    clusterGeneCount x (build_clusters pairs m)
      = clusterGeneCount x m + (pairs.map Prod.snd).count x := by
  induction pairs generalizing m with
  | nil => simp [build_clusters]
  | cons p ps ih =>
      rw [show build_clusters (p :: ps) m = build_clusters ps (addToCluster m p.1 p.2) from
          rfl, ih, clusterGeneCount_addToCluster]
      rw [List.map_cons, List.count_cons]
      by_cases h : p.2 = x
      all_goals simp [beq_iff_eq, h]
      all_goals ring

theorem countP_le_clusterGeneCount {γ : Type} [DecidableEq γ]
    (x : γ) (m : List (ℕ × List γ)) :
    m.countP (fun e => decide (x ∈ e.2)) ≤ clusterGeneCount x m := by
  induction m with
  | nil => simp [clusterGeneCount]
  | cons e rest ih =>
      rw [List.countP_cons, clusterGeneCount_cons]
      by_cases h : x ∈ e.2
      · have h1 : 0 < e.2.count x := List.count_pos_iff.mpr h
        simp [h]
        omega
      · simp [h]
        omega

theorem one_le_countP_clusterGeneCount {γ : Type} [DecidableEq γ]
    (x : γ) (m : List (ℕ × List γ)) (hm : 1 ≤ clusterGeneCount x m) :
    1 ≤ m.countP (fun e => decide (x ∈ e.2)) := by
  induction m with
  | nil => simp [clusterGeneCount] at hm
  | cons e rest ih =>
      rw [List.countP_cons]
      by_cases h : x ∈ e.2
      · simp [h]
      · have hz : e.2.count x = 0 := List.count_eq_zero.mpr h
        rw [clusterGeneCount_cons, hz] at hm
        have hrest := ih (by omega)
        exact le_trans hrest (Nat.le_add_right _ _)

/-- C6: the mapping returned by the pseudotime gene clustermap has key set
equal to the set of distinct palette colors of the flat-cluster assignments,
and (for distinct gene names, one per assignment) every input gene name lies in
exactly one of the value lists. -/
theorem c6_cluster_mapping {γ : Type} [DecidableEq γ] (palette : ℕ → ℕ)
    (gene_names : List γ) (assignments : List ℕ)
    (hlen : assignments.length = gene_names.length) (hnd : gene_names.Nodup) :
    (((gene_clusters palette gene_names assignments).map Prod.fst).toFinset
        = (assignments.map palette).toFinset) ∧
    (∀ g ∈ gene_names,
      (gene_clusters palette gene_names assignments).countP
        (fun e => decide (g ∈ e.2)) = 1) := by
  have hzfst : ((assignments.map palette).zip gene_names).map Prod.fst
      = assignments.map palette :=
    List.map_fst_zip _ _ (by simp [hlen])
  have hzsnd : ((assignments.map palette).zip gene_names).map Prod.snd = gene_names :=
    List.map_snd_zip _ _ (by simp [hlen])
  constructor
  · have h := keys_build_clusters ((assignments.map palette).zip gene_names)
      ([] : List (ℕ × List γ))
    simpa [gene_clusters, hzfst] using h
  · intro g hg
    have hcnt : clusterGeneCount g (gene_clusters palette gene_names assignments) = 1 := by
      have h := clusterGeneCount_build ((assignments.map palette).zip gene_names)
        ([] : List (ℕ × List γ)) g
      rw [hzsnd] at h
      have hone : gene_names.count g = 1 := List.count_eq_one_of_mem hnd hg
      simpa [gene_clusters, clusterGeneCount, hone] using h
    have hle := countP_le_clusterGeneCount g (gene_clusters palette gene_names assignments)
    have hge := one_le_countP_clusterGeneCount g
      (gene_clusters palette gene_names assignments) (by omega)
    omega

/-- C6 witness: two genes assigned to the same cluster land in the single
bucket keyed by that cluster's color, each appearing exactly once. -/
theorem c6_cluster_mapping_wit :
    (([3, 3] : List ℕ).length = ([10, 20] : List ℕ).length) ∧
    (([10, 20] : List ℕ).Nodup) ∧
    ((((gene_clusters (fun n => n) ([10, 20] : List ℕ) [3, 3]).map Prod.fst).toFinset
        = (([3, 3] : List ℕ).map (fun n => n)).toFinset) ∧
      ∀ g ∈ ([10, 20] : List ℕ),
        (gene_clusters (fun n => n) ([10, 20] : List ℕ) [3, 3]).countP
          (fun e => decide (g ∈ e.2)) = 1) :=
  ⟨rfl, by decide, c6_cluster_mapping (fun n => n) [10, 20] [3, 3] rfl (by decide)⟩

end Scimitar
